import Mathlib

/-!
Shallow embedding of the `rate_limiter` repository: the four admission-control
algorithms (fixed window, sliding window, token bucket, leaky bucket) from
`src/rate_limiter/`.  Times, rates, token and queue levels are modelled as
rationals; the Redis store backing each limiter is modelled as explicit state
(a counter map for the fixed window, a scored member list for the sliding
window, two scalar registers for each bucket, plus the shared history list).
-/

namespace RateLimiter

/-- Rounding to two decimal places, as the Python code's `round(x, 2)` used when
reporting levels.  (Tie-breaking at exact half-hundredths differs from Python's
banker rounding; no statement below touches a tie.) -/
def round2 (x : ℚ) : ℚ := (round (x * 100) : ℚ) / 100

/-! ### Fixed window limiter (`fixed_window_limiter.py`) -/

structure FWConfig where
  max_requests : ℕ
  window_size : ℚ

/-- History record written by `FixedWindowRateLimiter._add_history_to_redis`
(the human-readable time string is kept only as the raw timestamp). -/
structure FWRecord where
  user : String
  allowed : Bool
  count_after : ℕ
  window_reset : Bool
  timestamp : ℚ

/-- The Redis state touched by the fixed-window limiter: one integer counter
per window key `rate_limit:{window_start}` (absent keys read as 0), plus the
shared history list. -/
structure FWState where
  counts : ℚ → ℕ
  history : List FWRecord

def FWState.initial : FWState := ⟨fun _ => 0, []⟩

/-- `int(current_time // self.window_size) * self.window_size`. -/
def FWConfig.windowStart (cfg : FWConfig) (now : ℚ) : ℚ :=
  ⌊now / cfg.window_size⌋ * cfg.window_size

structure FWResult where
  allowed : Bool
  window_reset : Bool
  count : ℕ
  state : FWState

/-- `FixedWindowRateLimiter.is_allowed` (happy path: the Redis pipeline
INCR + EXPIRE succeeds).  The counter of the current window is incremented
unconditionally; the call is admitted iff the post-increment count is at most
`max_requests`, and `window_reset` is true iff that count equals 1. -/
def FWConfig.is_allowed (cfg : FWConfig) (s : FWState) (client : String)
    (now : ℚ) : FWResult :=
  let ws := cfg.windowStart now
  let c := s.counts ws + 1
  let allowed := decide (c ≤ cfg.max_requests)
  let wreset := decide (c = 1)
  let entry : FWRecord := ⟨client, allowed, c, wreset, now⟩
  { allowed := allowed
    window_reset := wreset
    count := c
    state := ⟨fun k => if k = ws then c else s.counts k,
              (entry :: s.history).take 50⟩ }

structure FWStatus where
  current_count : ℕ
  max_requests : ℕ
  remaining : ℤ
  time_remaining : ℚ
  algorithm : String

/-- `FixedWindowRateLimiter.get_status` (happy path). -/
def FWConfig.get_status (cfg : FWConfig) (s : FWState) (now : ℚ) : FWStatus :=
  let ws := cfg.windowStart now
  let c := s.counts ws
  { current_count := c
    max_requests := cfg.max_requests
    remaining := max 0 ((cfg.max_requests : ℤ) - (c : ℤ))
    time_remaining := max 0 (ws + cfg.window_size - now)
    algorithm := "Fixed Window" }

/-- `FixedWindowRateLimiter.reset`: delete every `rate_limit:*` key and the
history key. -/
def FWState.resetState (_ : FWState) : FWState := FWState.initial

/-! ### Token bucket limiter (`token_bucket_limiter.py`) -/

structure TBConfig where
  capacity : ℚ
  refill_rate : ℚ

structure TBRecord where
  user : String
  allowed : Bool
  count_after : ℚ
  cost : ℚ
  timestamp : ℚ

/-- The two scalar Redis registers `token_bucket_tokens` and
`token_bucket_last_refill`, plus the history list. -/
structure TBState where
  tokens : ℚ
  last_refill : ℚ
  history : List TBRecord

/-- `TokenBucketLimiter._refill_tokens`: catch the level up to `now`, clamped
above by the capacity, and stamp `last_refill := now`.  Returns the caught-up
level together with the written-back state. -/
def TBConfig.refill_tokens (cfg : TBConfig) (s : TBState) (now : ℚ) :
    ℚ × TBState :=
  let time_passed := now - s.last_refill
  let new_tokens := min cfg.capacity (s.tokens + time_passed * cfg.refill_rate)
  (new_tokens, { s with tokens := new_tokens, last_refill := now })

structure TBResult where
  allowed : Bool
  cost_charged : ℚ
  tokens_remaining : ℚ
  state : TBState

/-- `TokenBucketLimiter.is_allowed`: refill, then admit iff the caught-up
tokens cover `cost`, deducting `cost` on admission and leaving the caught-up
level unchanged on denial. -/
def TBConfig.is_allowed (cfg : TBConfig) (s : TBState) (client : String)
    (now : ℚ) (cost : ℚ) : TBResult :=
  let r := cfg.refill_tokens s now
  let current_tokens := r.1
  let s1 := r.2
  if cost ≤ current_tokens then
    let new_tokens := current_tokens - cost
    let entry : TBRecord := ⟨client, true, round2 new_tokens, cost, now⟩
    ⟨true, cost, new_tokens,
      { s1 with tokens := new_tokens, history := (entry :: s1.history).take 50 }⟩
  else
    let entry : TBRecord := ⟨client, false, round2 current_tokens, cost, now⟩
    ⟨false, 0, current_tokens,
      { s1 with history := (entry :: s1.history).take 50 }⟩

structure TBStatus where
  current_tokens : ℚ
  capacity : ℚ
  refill_rate : ℚ
  time_to_fill : ℚ
  algorithm : String

/-- `TokenBucketLimiter.get_status`: refills (mutating the stored state) and
reports the rounded level and time-to-fill. -/
def TBConfig.get_status (cfg : TBConfig) (s : TBState) (now : ℚ) :
    TBStatus × TBState :=
  let r := cfg.refill_tokens s now
  let current_tokens := r.1
  let ttf := if 0 < cfg.refill_rate then (cfg.capacity - current_tokens) / cfg.refill_rate
             else 0
  (⟨round2 current_tokens, cfg.capacity, cfg.refill_rate, round2 ttf,
    "Token Bucket"⟩, r.2)

/-- `TokenBucketLimiter.reset`: level back to full capacity, `last_refill` to
the current time, history deleted. -/
def TBConfig.resetState (cfg : TBConfig) (now : ℚ) : TBState :=
  ⟨cfg.capacity, now, []⟩

/-! ### Leaky bucket limiter (`leaky_bucket_limiter.py`) -/

structure LBConfig where
  capacity : ℚ
  leak_rate : ℚ

structure LBRecord where
  user : String
  allowed : Bool
  count_after : ℚ
  cost : ℚ
  timestamp : ℚ

structure LBState where
  queue_size : ℚ
  last_leak : ℚ
  history : List LBRecord

/-- `LeakyBucketLimiter._leak_requests`: drain the queue by the elapsed time
times the leak rate, clamped below at 0, and stamp `last_leak := now`. -/
def LBConfig.leak_requests (cfg : LBConfig) (s : LBState) (now : ℚ) :
    ℚ × LBState :=
  let time_passed := now - s.last_leak
  let new_queue_size := max 0 (s.queue_size - time_passed * cfg.leak_rate)
  (new_queue_size, { s with queue_size := new_queue_size, last_leak := now })

structure LBResult where
  allowed : Bool
  queue_position : Option ℚ
  queue_size : ℚ
  state : LBState

/-- `LeakyBucketLimiter.is_allowed`: leak, then admit iff the caught-up queue
plus `cost` fits under the capacity, adding `cost` on admission. -/
def LBConfig.is_allowed (cfg : LBConfig) (s : LBState) (client : String)
    (now : ℚ) (cost : ℚ) : LBResult :=
  let r := cfg.leak_requests s now
  let current := r.1
  let s1 := r.2
  if current + cost ≤ cfg.capacity then
    let nq := current + cost
    let entry : LBRecord := ⟨client, true, round2 nq, cost, now⟩
    ⟨true, some nq, nq,
      { s1 with queue_size := nq, history := (entry :: s1.history).take 50 }⟩
  else
    let entry : LBRecord := ⟨client, false, round2 current, cost, now⟩
    ⟨false, none, current,
      { s1 with history := (entry :: s1.history).take 50 }⟩

structure LBStatus where
  current_count : ℚ
  max_requests : ℚ
  remaining : ℚ
  time_to_empty : ℚ
  algorithm : String

/-- `LeakyBucketLimiter.get_status`: leaks (mutating the stored state) and
reports the rounded queue level and time-to-empty. -/
def LBConfig.get_status (cfg : LBConfig) (s : LBState) (now : ℚ) :
    LBStatus × LBState :=
  let r := cfg.leak_requests s now
  let q := r.1
  let tte := if 0 < cfg.leak_rate then q / cfg.leak_rate else 0
  (⟨round2 q, cfg.capacity, round2 (cfg.capacity - q), round2 tte,
    "Leaky Bucket"⟩, r.2)

/-- `LeakyBucketLimiter.reset`: queue back to empty, `last_leak` to the current
time, history deleted. -/
def LBConfig.resetState (_ : LBConfig) (now : ℚ) : LBState := ⟨0, now, []⟩

/-! ### Sliding window limiter (`sliding_window_limiter.py`) -/

structure SWConfig where
  max_requests : ℕ
  window_size : ℚ

structure SWRecord where
  user : String
  allowed : Bool
  count_after : ℕ
  timestamp : ℚ

/-- The sorted set `sliding_window_timestamps` (member, score) plus the history
list. -/
structure SWState where
  entries : List (String × ℚ)
  history : List SWRecord

def SWState.zcard (s : SWState) : ℕ := s.entries.length

/-- Redis `ZADD`: update the score if the member exists, otherwise insert. -/
def SWState.zadd (s : SWState) (member : String) (score : ℚ) : SWState :=
  if s.entries.any (fun e => e.1 == member) then
    { s with entries := s.entries.map (fun e => if e.1 == member then (member, score) else e) }
  else
    { s with entries := (member, score) :: s.entries }

/-- `SlidingWindowLimiter._remove_old_requests`: ZREMRANGEBYSCORE over
`[0, now - window_size]` (scores in that closed range are removed).  Returns
the removed count and the pruned state. -/
def SWConfig.remove_old_requests (cfg : SWConfig) (s : SWState) (now : ℚ) :
    ℕ × SWState :=
  let thr := now - cfg.window_size
  let kept := s.entries.filter (fun e => !(decide (0 ≤ e.2) && decide (e.2 ≤ thr)))
  (s.entries.length - kept.length, { s with entries := kept })

structure SWResult where
  allowed : Bool
  window_requests : ℕ
  removed_requests : ℕ
  state : SWState

/-- `SlidingWindowLimiter.is_allowed`: prune, count, and if the count is below
`max_requests`, ZADD a uniquely keyed timestamp (`member` stands for the
Python key `"{now:.6f}_{client}_{time_ns}"`) and admit; otherwise deny without
inserting. -/
def SWConfig.is_allowed (cfg : SWConfig) (s : SWState) (client : String)
    (member : String) (now : ℚ) : SWResult :=
  let pr := cfg.remove_old_requests s now
  let removed := pr.1
  let s1 := pr.2
  let current_count := s1.zcard
  if current_count < cfg.max_requests then
    let s2 := s1.zadd member now
    let final_count := s2.zcard
    let entry : SWRecord := ⟨client, true, final_count, now⟩
    ⟨true, final_count, removed, { s2 with history := (entry :: s2.history).take 50 }⟩
  else
    let entry : SWRecord := ⟨client, false, current_count, now⟩
    ⟨false, current_count, removed, { s1 with history := (entry :: s1.history).take 50 }⟩

structure SWStatus where
  current_count : ℕ
  max_requests : ℕ
  remaining : ℤ
  algorithm : String

/-- `SlidingWindowLimiter.get_status`: prune, then report the live count. -/
def SWConfig.get_status (cfg : SWConfig) (s : SWState) (now : ℚ) :
    SWStatus × SWState :=
  let pr := cfg.remove_old_requests s now
  let s1 := pr.2
  (⟨s1.zcard, cfg.max_requests, max 0 ((cfg.max_requests : ℤ) - (s1.zcard : ℤ)),
    "Sliding Window"⟩, s1)

/-- `SlidingWindowLimiter.reset`: delete the sorted set and the history. -/
def SWState.resetState (_ : SWState) : SWState := ⟨[], []⟩

/-! ### Claim C1: fixed-window decide semantics -/

/-- C1: every `FixedWindowRateLimiter.is_allowed` call at time `now` increments
the counter of the window starting at `⌊now / windowSize⌋ * windowSize` by
exactly one (denied calls included, all other window counters untouched),
admits iff the post-increment count is at most `maxRequests`, and reports
`window_reset` iff that count equals 1; with `maxRequests = 3` and
`windowSize = 60`, three calls at `t = 0` admit with counts 1, 2, 3, a fourth
call at `t = 10` denies with count 4, and a call at `t = 61` admits with
count 1 and `window_reset = true`. -/
theorem fixedWindow_decide_spec :
    (∀ (cfg : FWConfig) (s : FWState) (client : String) (now : ℚ),
      (cfg.is_allowed s client now).count = s.counts (cfg.windowStart now) + 1 ∧
      (cfg.is_allowed s client now).state.counts (cfg.windowStart now) =
        s.counts (cfg.windowStart now) + 1 ∧
      (∀ k, k ≠ cfg.windowStart now →
        (cfg.is_allowed s client now).state.counts k = s.counts k) ∧
      ((cfg.is_allowed s client now).allowed = true ↔
        (cfg.is_allowed s client now).count ≤ cfg.max_requests) ∧
      ((cfg.is_allowed s client now).window_reset = true ↔
        (cfg.is_allowed s client now).count = 1)) ∧
    (let cfg : FWConfig := ⟨3, 60⟩
     let r1 := cfg.is_allowed FWState.initial "A" 0
     let r2 := cfg.is_allowed r1.state "B" 0
     let r3 := cfg.is_allowed r2.state "C" 0
     let r4 := cfg.is_allowed r3.state "D" 10
     let r5 := cfg.is_allowed r4.state "E" 61
     r1.allowed = true ∧ r1.count = 1 ∧
     r2.allowed = true ∧ r2.count = 2 ∧
     r3.allowed = true ∧ r3.count = 3 ∧
     r4.allowed = false ∧ r4.count = 4 ∧
     r5.allowed = true ∧ r5.count = 1 ∧ r5.window_reset = true) := by
  constructor
  · intro cfg s client now
    refine ⟨rfl, by simp [FWConfig.is_allowed], fun k hk => by simp [FWConfig.is_allowed, hk],
      ?_, ?_⟩
    · simp [FWConfig.is_allowed]
    · simp [FWConfig.is_allowed]
  · simp only [FWConfig.is_allowed, FWConfig.windowStart, FWState.initial]
    norm_num

/-- Witness for C1: the universally quantified part of
`fixedWindow_decide_spec` applied at a concrete input, discharging the
`k ≠ windowStart` hypothesis at `k = 5`. -/
theorem fixedWindow_decide_spec_witness :
    ((⟨3, 60⟩ : FWConfig).is_allowed FWState.initial "A" 0).state.counts 5 = 0 := by
  have h := (fixedWindow_decide_spec.1 (⟨3, 60⟩ : FWConfig) FWState.initial "A" 0).2.2.1 5
  rw [h (by norm_num [FWConfig.windowStart])]
  rfl

/-! ### Claim C2: token-bucket decide semantics -/

/-- C2: every `TokenBucketLimiter.is_allowed` call first catches the level up
to `min(capacity, tokens + (now - lastRefill) * refillRate)` with
`lastRefill := now`, admits iff the caught-up tokens cover the cost (deducting
exactly `cost`), denies leaving the caught-up level unchanged, and in
particular denies any call whose cost exceeds the capacity, no matter how much
time has passed. -/
theorem tokenBucket_decide_spec (cfg : TBConfig) (s : TBState) (client : String)
    (now cost : ℚ) :
    (cfg.refill_tokens s now).1 =
        min cfg.capacity (s.tokens + (now - s.last_refill) * cfg.refill_rate) ∧
    (cfg.refill_tokens s now).2.tokens = (cfg.refill_tokens s now).1 ∧
    (cfg.refill_tokens s now).2.last_refill = now ∧
    (cfg.is_allowed s client now cost).state.last_refill = now ∧
    ((cfg.is_allowed s client now cost).allowed = true ↔
      cost ≤ min cfg.capacity (s.tokens + (now - s.last_refill) * cfg.refill_rate)) ∧
    ((cfg.is_allowed s client now cost).allowed = true →
      (cfg.is_allowed s client now cost).state.tokens =
        min cfg.capacity (s.tokens + (now - s.last_refill) * cfg.refill_rate) - cost ∧
      (cfg.is_allowed s client now cost).tokens_remaining =
        min cfg.capacity (s.tokens + (now - s.last_refill) * cfg.refill_rate) - cost) ∧
    ((cfg.is_allowed s client now cost).allowed = false →
      (cfg.is_allowed s client now cost).state.tokens =
        min cfg.capacity (s.tokens + (now - s.last_refill) * cfg.refill_rate) ∧
      (cfg.is_allowed s client now cost).tokens_remaining =
        min cfg.capacity (s.tokens + (now - s.last_refill) * cfg.refill_rate)) ∧
    (cfg.capacity < cost → (cfg.is_allowed s client now cost).allowed = false) := by
  by_cases h : cost ≤ min cfg.capacity (s.tokens + (now - s.last_refill) * cfg.refill_rate)
  · refine ⟨rfl, rfl, rfl, ?_, ?_, ?_, ?_, ?_⟩ <;>
      simp [TBConfig.is_allowed, TBConfig.refill_tokens, h]
    exact h.trans (min_le_left _ _)
  · refine ⟨rfl, rfl, rfl, ?_, ?_, ?_, ?_, ?_⟩ <;>
      simp [TBConfig.is_allowed, TBConfig.refill_tokens, h]

/-- Witness for C2: a bucket of capacity 10 denies a cost-11 call even after a
long wait (the theorem applied at a concrete input, its `capacity < cost`
hypothesis discharged). -/
theorem tokenBucket_decide_spec_witness :
    ((⟨10, 1⟩ : TBConfig).is_allowed ⟨10, 0, []⟩ "A" 1000 11).allowed = false :=
  (tokenBucket_decide_spec ⟨10, 1⟩ ⟨10, 0, []⟩ "A" 1000 11).2.2.2.2.2.2.2
    (by norm_num)

/-! ### Claim C4: leaky-bucket decide semantics -/

/-- C4: every `LeakyBucketLimiter.is_allowed` call first catches the queue
level up to `max(0, queueLevel - (now - lastLeak) * leakRate)` with
`lastLeak := now`, admits iff the caught-up level plus the cost fits under the
capacity (raising the level by exactly `cost`), and otherwise denies leaving
the caught-up level unchanged. -/
theorem leakyBucket_decide_spec (cfg : LBConfig) (s : LBState) (client : String)
    (now cost : ℚ) :
    (cfg.leak_requests s now).1 =
        max 0 (s.queue_size - (now - s.last_leak) * cfg.leak_rate) ∧
    (cfg.leak_requests s now).2.queue_size = (cfg.leak_requests s now).1 ∧
    (cfg.leak_requests s now).2.last_leak = now ∧
    (cfg.is_allowed s client now cost).state.last_leak = now ∧
    ((cfg.is_allowed s client now cost).allowed = true ↔
      max 0 (s.queue_size - (now - s.last_leak) * cfg.leak_rate) + cost ≤ cfg.capacity) ∧
    ((cfg.is_allowed s client now cost).allowed = true →
      (cfg.is_allowed s client now cost).state.queue_size =
        max 0 (s.queue_size - (now - s.last_leak) * cfg.leak_rate) + cost ∧
      (cfg.is_allowed s client now cost).queue_size =
        max 0 (s.queue_size - (now - s.last_leak) * cfg.leak_rate) + cost) ∧
    ((cfg.is_allowed s client now cost).allowed = false →
      (cfg.is_allowed s client now cost).state.queue_size =
        max 0 (s.queue_size - (now - s.last_leak) * cfg.leak_rate) ∧
      (cfg.is_allowed s client now cost).queue_size =
        max 0 (s.queue_size - (now - s.last_leak) * cfg.leak_rate)) := by
  by_cases h : max 0 (s.queue_size - (now - s.last_leak) * cfg.leak_rate) + cost ≤ cfg.capacity
  · refine ⟨rfl, rfl, rfl, ?_, ?_, ?_, ?_⟩ <;>
      simp [LBConfig.is_allowed, LBConfig.leak_requests, h]
  · refine ⟨rfl, rfl, rfl, ?_, ?_, ?_, ?_⟩ <;>
      simp [LBConfig.is_allowed, LBConfig.leak_requests, h]

/-- Witness for C4: a unit-cost call on an empty bucket of capacity 5 admits
and raises the level to 1 (the theorem applied at a concrete input, its
admission hypothesis discharged by evaluation). -/
theorem leakyBucket_decide_spec_witness :
    ((⟨5, 1⟩ : LBConfig).is_allowed ⟨0, 0, []⟩ "A" 0 1).state.queue_size = 1 := by
  have h := (leakyBucket_decide_spec ⟨5, 1⟩ ⟨0, 0, []⟩ "A" 0 1).2.2.2.2.2.1
  have ha : ((⟨5, 1⟩ : LBConfig).is_allowed ⟨0, 0, []⟩ "A" 0 1).allowed = true := by
    rw [(leakyBucket_decide_spec ⟨5, 1⟩ ⟨0, 0, []⟩ "A" 0 1).2.2.2.2.1]
    norm_num
  rw [(h ha).1]
  norm_num

/-! ### Claim C3: sliding-window decide semantics -/

/-- ZADD with a member that is not yet in the set prepends a fresh entry. -/
theorem SWState.zadd_fresh (s : SWState) (member : String) (score : ℚ)
    (h : ∀ e ∈ s.entries, e.1 ≠ member) :
    (s.zadd member score).entries = (member, score) :: s.entries := by
  unfold SWState.zadd
  rw [if_neg]
  simp only [List.any_eq_true, beq_iff_eq, not_exists, not_and]
  exact fun e he => h e he

/-- Entries surviving `_remove_old_requests` are entries of the original set. -/
theorem SWConfig.remove_old_subset (cfg : SWConfig) (s : SWState) (now : ℚ) :
    ∀ e ∈ (cfg.remove_old_requests s now).2.entries, e ∈ s.entries := by
  intro e he
  exact (List.mem_filter.mp he).1

/-- C3: every `SlidingWindowLimiter.is_allowed` call first removes all stored
timestamps with score at most `now - windowSize` (on states whose scores are
non-negative, as every admission writes), keeps every newer entry, admits and
inserts exactly one new uniquely keyed entry iff the pruned count is below
`maxRequests`, and denies without inserting otherwise; with `maxRequests = 2`
and `windowSize = 10`, two admissions at `t = 0` are followed by a denial at
`t = 5` and an admission at `t = 11`. -/
theorem slidingWindow_decide_spec (cfg : SWConfig) (s : SWState)
    (client member : String) (now : ℚ)
    (hscores : ∀ e ∈ s.entries, 0 ≤ e.2)
    (hfresh : ∀ e ∈ s.entries, e.1 ≠ member) :
    (∀ e ∈ (cfg.remove_old_requests s now).2.entries,
      now - cfg.window_size < e.2) ∧
    (∀ e ∈ s.entries, now - cfg.window_size < e.2 →
      e ∈ (cfg.remove_old_requests s now).2.entries) ∧
    ((cfg.is_allowed s client member now).allowed = true ↔
      (cfg.remove_old_requests s now).2.zcard < cfg.max_requests) ∧
    ((cfg.is_allowed s client member now).allowed = true →
      (cfg.is_allowed s client member now).state.entries =
        (member, now) :: (cfg.remove_old_requests s now).2.entries) ∧
    ((cfg.is_allowed s client member now).allowed = false →
      (cfg.is_allowed s client member now).state.entries =
        (cfg.remove_old_requests s now).2.entries) ∧
    (let swcfg : SWConfig := ⟨2, 10⟩
     let a1 := swcfg.is_allowed ⟨[], []⟩ "A" "m1" 0
     let a2 := swcfg.is_allowed a1.state "B" "m2" 0
     let b := swcfg.is_allowed a2.state "C" "m3" 5
     let c := swcfg.is_allowed a2.state "D" "m4" 11
     a1.allowed = true ∧ a2.allowed = true ∧ b.allowed = false ∧
     c.allowed = true) := by
  have hza := SWState.zadd_fresh (cfg.remove_old_requests s now).2 member now
    (fun e he => hfresh e (cfg.remove_old_subset s now e he))
  refine ⟨?_, ?_, ?_, ?_, ?_, ?_⟩
  · intro e he
    have hmem := (List.mem_filter.mp he).1
    have hcond := (List.mem_filter.mp he).2
    simp only [Bool.not_eq_eq_eq_not, Bool.not_true, Bool.and_eq_false_imp,
      decide_eq_true_eq, decide_eq_false_iff_not, not_le] at hcond
    exact hcond (hscores e hmem)
  · intro e he hnew
    refine List.mem_filter.mpr ⟨he, ?_⟩
    simp only [Bool.not_eq_eq_eq_not, Bool.not_true, Bool.and_eq_false_imp,
      decide_eq_true_eq, decide_eq_false_iff_not, not_le]
    intro _
    exact hnew
  · by_cases h : (cfg.remove_old_requests s now).2.zcard < cfg.max_requests <;>
      simp [SWConfig.is_allowed, h]
  · intro ha
    by_cases h : (cfg.remove_old_requests s now).2.zcard < cfg.max_requests
    · simp [SWConfig.is_allowed, h, hza]
    · simp [SWConfig.is_allowed, h] at ha
  · intro ha
    by_cases h : (cfg.remove_old_requests s now).2.zcard < cfg.max_requests
    · simp [SWConfig.is_allowed, h] at ha
    · simp [SWConfig.is_allowed, h]
  · norm_num [SWConfig.is_allowed, SWConfig.remove_old_requests, SWState.zadd,
      SWState.zcard, List.filter, List.any]

/-- Witness for C3: with both hypotheses discharged on a concrete one-entry
state, a call at `t = 11` on a window of size 10 prunes the old entry and
admits, leaving exactly the fresh entry. -/
theorem slidingWindow_decide_spec_witness :
    ((⟨2, 10⟩ : SWConfig).is_allowed ⟨[("m1", 0)], []⟩ "A" "m9" 11).state.entries =
      [("m9", 11)] := by
  have h := slidingWindow_decide_spec ⟨2, 10⟩ ⟨[("m1", 0)], []⟩ "A" "m9" 11
    (by norm_num) (by intro e he; simp at he; simp [he])
  have ha : ((⟨2, 10⟩ : SWConfig).is_allowed ⟨[("m1", 0)], []⟩ "A" "m9" 11).allowed = true := by
    rw [h.2.2.1]
    simp [SWConfig.remove_old_requests, SWState.zcard]
    norm_num
  rw [h.2.2.2.1 ha]
  simp [SWConfig.remove_old_requests]
  norm_num

/-! ### Claim C5: bucket levels stay in `[0, capacity]` -/

/-- One caller-visible operation on a bucket limiter; `dt` is the non-negative
time elapsed since the previous operation (every operation stamps the store
with the current time, so absolute time is `last update + dt`). -/
inductive BucketOp where
  | decide (dt cost : ℚ)
  | status (dt : ℚ)
  | resetOp (dt : ℚ)

/-- Validity of the inputs to one operation: time moves forward and, per the
decide contract, the cost is non-negative. -/
def BucketOp.Valid : BucketOp → Prop
  | .decide dt cost => 0 ≤ dt ∧ 0 ≤ cost
  | .status dt => 0 ≤ dt
  | .resetOp dt => 0 ≤ dt

def TBConfig.applyOp (cfg : TBConfig) (s : TBState) : BucketOp → TBState
  | .decide dt cost => (cfg.is_allowed s "" (s.last_refill + dt) cost).state
  | .status dt => (cfg.get_status s (s.last_refill + dt)).2
  | .resetOp dt => cfg.resetState (s.last_refill + dt)

def TBConfig.runOps (cfg : TBConfig) (s : TBState) (ops : List BucketOp) : TBState :=
  ops.foldl cfg.applyOp s

def LBConfig.applyOp (cfg : LBConfig) (s : LBState) : BucketOp → LBState
  | .decide dt cost => (cfg.is_allowed s "" (s.last_leak + dt) cost).state
  | .status dt => (cfg.get_status s (s.last_leak + dt)).2
  | .resetOp dt => cfg.resetState (s.last_leak + dt)

def LBConfig.runOps (cfg : LBConfig) (s : LBState) (ops : List BucketOp) : LBState :=
  ops.foldl cfg.applyOp s

theorem TBConfig.refill_tokens_mem (cfg : TBConfig) (s : TBState) (now : ℚ)
    (hcap : 0 ≤ cfg.capacity) (hrate : 0 ≤ cfg.refill_rate)
    (hnow : s.last_refill ≤ now) (h0 : 0 ≤ s.tokens) :
    0 ≤ (cfg.refill_tokens s now).2.tokens ∧
      (cfg.refill_tokens s now).2.tokens ≤ cfg.capacity := by
  have hdr : 0 ≤ (now - s.last_refill) * cfg.refill_rate :=
    mul_nonneg (by linarith) hrate
  have h2 : (cfg.refill_tokens s now).2.tokens =
      min cfg.capacity (s.tokens + (now - s.last_refill) * cfg.refill_rate) := rfl
  rw [h2]
  exact ⟨le_min hcap (by linarith), min_le_left _ _⟩

theorem TBConfig.is_allowed_tokens_mem (cfg : TBConfig) (s : TBState)
    (client : String) (now cost : ℚ)
    (hcap : 0 ≤ cfg.capacity) (hrate : 0 ≤ cfg.refill_rate)
    (hnow : s.last_refill ≤ now) (hcost : 0 ≤ cost) (h0 : 0 ≤ s.tokens) :
    0 ≤ (cfg.is_allowed s client now cost).state.tokens ∧
      (cfg.is_allowed s client now cost).state.tokens ≤ cfg.capacity := by
  have hdr : 0 ≤ (now - s.last_refill) * cfg.refill_rate :=
    mul_nonneg (by linarith) hrate
  have hmin0 : 0 ≤ min cfg.capacity (s.tokens + (now - s.last_refill) * cfg.refill_rate) :=
    le_min hcap (by linarith)
  have hminc : min cfg.capacity (s.tokens + (now - s.last_refill) * cfg.refill_rate) ≤
      cfg.capacity := min_le_left _ _
  by_cases hadm : cost ≤ min cfg.capacity (s.tokens + (now - s.last_refill) * cfg.refill_rate)
  · have ht : (cfg.is_allowed s client now cost).state.tokens =
        min cfg.capacity (s.tokens + (now - s.last_refill) * cfg.refill_rate) - cost := by
      simp [TBConfig.is_allowed, TBConfig.refill_tokens, hadm]
    rw [ht]
    exact ⟨by linarith, by linarith⟩
  · have ht : (cfg.is_allowed s client now cost).state.tokens =
        min cfg.capacity (s.tokens + (now - s.last_refill) * cfg.refill_rate) := by
      simp [TBConfig.is_allowed, TBConfig.refill_tokens, hadm]
    rw [ht]
    exact ⟨hmin0, hminc⟩

theorem TBConfig.applyOp_tokens_mem (cfg : TBConfig) (s : TBState) (op : BucketOp)
    (hcap : 0 ≤ cfg.capacity) (hrate : 0 ≤ cfg.refill_rate) (hop : op.Valid)
    (h0 : 0 ≤ s.tokens) (_h1 : s.tokens ≤ cfg.capacity) :
    0 ≤ (cfg.applyOp s op).tokens ∧ (cfg.applyOp s op).tokens ≤ cfg.capacity := by
  cases op with
  | decide dt cost =>
    exact cfg.is_allowed_tokens_mem s "" (s.last_refill + dt) cost hcap hrate
      (by linarith [hop.1]) hop.2 h0
  | status dt =>
    have hdt : 0 ≤ dt := hop
    exact cfg.refill_tokens_mem s (s.last_refill + dt) hcap hrate
      (by linarith) h0
  | resetOp dt =>
    exact ⟨hcap, le_refl _⟩

theorem LBConfig.leak_requests_mem (cfg : LBConfig) (s : LBState) (now : ℚ)
    (hcap : 0 ≤ cfg.capacity) (hrate : 0 ≤ cfg.leak_rate)
    (hnow : s.last_leak ≤ now) (h1 : s.queue_size ≤ cfg.capacity) :
    0 ≤ (cfg.leak_requests s now).2.queue_size ∧
      (cfg.leak_requests s now).2.queue_size ≤ cfg.capacity := by
  have hdr : 0 ≤ (now - s.last_leak) * cfg.leak_rate :=
    mul_nonneg (by linarith) hrate
  have h2 : (cfg.leak_requests s now).2.queue_size =
      max 0 (s.queue_size - (now - s.last_leak) * cfg.leak_rate) := rfl
  rw [h2]
  exact ⟨le_max_left _ _, max_le hcap (by linarith)⟩

theorem LBConfig.is_allowed_queue_mem (cfg : LBConfig) (s : LBState)
    (client : String) (now cost : ℚ)
    (hcap : 0 ≤ cfg.capacity) (hrate : 0 ≤ cfg.leak_rate)
    (hnow : s.last_leak ≤ now) (hcost : 0 ≤ cost)
    (h1 : s.queue_size ≤ cfg.capacity) :
    0 ≤ (cfg.is_allowed s client now cost).state.queue_size ∧
      (cfg.is_allowed s client now cost).state.queue_size ≤ cfg.capacity := by
  have hdr : 0 ≤ (now - s.last_leak) * cfg.leak_rate :=
    mul_nonneg (by linarith) hrate
  have hmax0 : 0 ≤ max 0 (s.queue_size - (now - s.last_leak) * cfg.leak_rate) :=
    le_max_left _ _
  have hmaxc : max 0 (s.queue_size - (now - s.last_leak) * cfg.leak_rate) ≤
      cfg.capacity := max_le hcap (by linarith)
  by_cases hadm : max 0 (s.queue_size - (now - s.last_leak) * cfg.leak_rate) + cost ≤ cfg.capacity
  · have hq : (cfg.is_allowed s client now cost).state.queue_size =
        max 0 (s.queue_size - (now - s.last_leak) * cfg.leak_rate) + cost := by
      simp [LBConfig.is_allowed, LBConfig.leak_requests, hadm]
    rw [hq]
    exact ⟨by linarith, hadm⟩
  · have hq : (cfg.is_allowed s client now cost).state.queue_size =
        max 0 (s.queue_size - (now - s.last_leak) * cfg.leak_rate) := by
      simp [LBConfig.is_allowed, LBConfig.leak_requests, hadm]
    rw [hq]
    exact ⟨hmax0, hmaxc⟩

theorem LBConfig.applyOp_queue_mem (cfg : LBConfig) (s : LBState) (op : BucketOp)
    (hcap : 0 ≤ cfg.capacity) (hrate : 0 ≤ cfg.leak_rate) (hop : op.Valid)
    (_h0 : 0 ≤ s.queue_size) (h1 : s.queue_size ≤ cfg.capacity) :
    0 ≤ (cfg.applyOp s op).queue_size ∧ (cfg.applyOp s op).queue_size ≤ cfg.capacity := by
  cases op with
  | decide dt cost =>
    exact cfg.is_allowed_queue_mem s "" (s.last_leak + dt) cost hcap hrate
      (by linarith [hop.1]) hop.2 h1
  | status dt =>
    have hdt : 0 ≤ dt := hop
    exact cfg.leak_requests_mem s (s.last_leak + dt) hcap hrate
      (by linarith) h1
  | resetOp dt =>
    exact ⟨le_refl _, hcap⟩

theorem TBConfig.runOps_tokens_mem (cfg : TBConfig) (ops : List BucketOp) :
    ∀ (s : TBState), 0 ≤ cfg.capacity → 0 ≤ cfg.refill_rate →
      (∀ op ∈ ops, op.Valid) → 0 ≤ s.tokens → s.tokens ≤ cfg.capacity →
      0 ≤ (cfg.runOps s ops).tokens ∧ (cfg.runOps s ops).tokens ≤ cfg.capacity := by
  induction ops with
  | nil => exact fun s _ _ _ h0 h1 => ⟨h0, h1⟩
  | cons op rest ih =>
    intro s hcap hrate hops h0 h1
    have hstep := cfg.applyOp_tokens_mem s op hcap hrate (hops op (by simp)) h0 h1
    exact ih (cfg.applyOp s op) hcap hrate (fun o ho => hops o (by simp [ho]))
      hstep.1 hstep.2

theorem LBConfig.runOps_queue_mem (cfg : LBConfig) (ops : List BucketOp) :
    ∀ (s : LBState), 0 ≤ cfg.capacity → 0 ≤ cfg.leak_rate →
      (∀ op ∈ ops, op.Valid) → 0 ≤ s.queue_size → s.queue_size ≤ cfg.capacity →
      0 ≤ (cfg.runOps s ops).queue_size ∧ (cfg.runOps s ops).queue_size ≤ cfg.capacity := by
  induction ops with
  | nil => exact fun s _ _ _ h0 h1 => ⟨h0, h1⟩
  | cons op rest ih =>
    intro s hcap hrate hops h0 h1
    have hstep := cfg.applyOp_queue_mem s op hcap hrate (hops op (by simp)) h0 h1
    exact ih (cfg.applyOp s op) hcap hrate (fun o ho => hops o (by simp [ho]))
      hstep.1 hstep.2

/-- C5: for the token and leaky buckets, the stored level stays in
`[0, capacity]` after any sequence of decide, status, and reset operations
(with non-negative configs, elapsed times, and costs), starting from any state
whose level is in range — in particular the token level never goes negative or
above capacity, and the queue level never goes negative or above capacity. -/
theorem bucket_level_invariant
    (tcfg : TBConfig) (ts : TBState) (lcfg : LBConfig) (ls : LBState)
    (ops lops : List BucketOp)
    (htcap : 0 ≤ tcfg.capacity) (htrate : 0 ≤ tcfg.refill_rate)
    (htops : ∀ op ∈ ops, op.Valid)
    (ht0 : 0 ≤ ts.tokens) (ht1 : ts.tokens ≤ tcfg.capacity)
    (hlcap : 0 ≤ lcfg.capacity) (hlrate : 0 ≤ lcfg.leak_rate)
    (hlops : ∀ op ∈ lops, op.Valid)
    (hl0 : 0 ≤ ls.queue_size) (hl1 : ls.queue_size ≤ lcfg.capacity) :
    (0 ≤ (tcfg.runOps ts ops).tokens ∧ (tcfg.runOps ts ops).tokens ≤ tcfg.capacity) ∧
    (0 ≤ (lcfg.runOps ls lops).queue_size ∧
      (lcfg.runOps ls lops).queue_size ≤ lcfg.capacity) :=
  ⟨tcfg.runOps_tokens_mem ops ts htcap htrate htops ht0 ht1,
   lcfg.runOps_queue_mem lops ls hlcap hlrate hlops hl0 hl1⟩

/-- Witness for C5: a concrete three-operation run (decide, status, reset) on
a capacity-5 token bucket and a capacity-4 leaky bucket, all hypotheses
discharged at concrete values. -/
theorem bucket_level_invariant_witness :
    (0 ≤ ((⟨5, 1⟩ : TBConfig).runOps ⟨5, 0, []⟩
        [.decide 0 1, .status 2, .resetOp 1]).tokens ∧
      ((⟨5, 1⟩ : TBConfig).runOps ⟨5, 0, []⟩
        [.decide 0 1, .status 2, .resetOp 1]).tokens ≤ 5) ∧
    (0 ≤ ((⟨4, 2⟩ : LBConfig).runOps ⟨0, 0, []⟩
        [.decide 1 1, .status 1, .resetOp 0]).queue_size ∧
      ((⟨4, 2⟩ : LBConfig).runOps ⟨0, 0, []⟩
        [.decide 1 1, .status 1, .resetOp 0]).queue_size ≤ 4) :=
  bucket_level_invariant ⟨5, 1⟩ ⟨5, 0, []⟩ ⟨4, 2⟩ ⟨0, 0, []⟩
    [.decide 0 1, .status 2, .resetOp 1] [.decide 1 1, .status 1, .resetOp 0]
    (by norm_num) (by norm_num)
    (by intro op hop; simp at hop
        rcases hop with h | h | h <;> subst h <;> norm_num [BucketOp.Valid])
    (by norm_num) (by norm_num) (by norm_num) (by norm_num)
    (by intro op hop; simp at hop
        rcases hop with h | h | h <;> subst h <;> norm_num [BucketOp.Valid])
    (by norm_num) (by norm_num)

/-! ### Claim C10: catch-up splits over intermediate instants -/

theorem TBConfig.refill_refill (cfg : TBConfig) (s : TBState) (t T : ℚ)
    (hrate : 0 ≤ cfg.refill_rate) (htT : t ≤ T) :
    (cfg.refill_tokens (cfg.refill_tokens s t).2 T).2 =
      (cfg.refill_tokens s T).2 := by
  have hd : 0 ≤ (T - t) * cfg.refill_rate := mul_nonneg (by linarith) hrate
  simp only [TBConfig.refill_tokens]
  rcases le_total (s.tokens + (t - s.last_refill) * cfg.refill_rate) cfg.capacity with h | h
  · rw [min_eq_right h]
    congr 1
    ring_nf
  · rw [min_eq_left h]
    have hsum : s.tokens + (T - s.last_refill) * cfg.refill_rate =
        s.tokens + (t - s.last_refill) * cfg.refill_rate + (T - t) * cfg.refill_rate := by
      ring
    rw [min_eq_left (by linarith), min_eq_left (by linarith)]

theorem LBConfig.leak_leak (cfg : LBConfig) (s : LBState) (t T : ℚ)
    (hrate : 0 ≤ cfg.leak_rate) (htT : t ≤ T) :
    (cfg.leak_requests (cfg.leak_requests s t).2 T).2 =
      (cfg.leak_requests s T).2 := by
  have hd : 0 ≤ (T - t) * cfg.leak_rate := mul_nonneg (by linarith) hrate
  simp only [LBConfig.leak_requests]
  rcases le_total 0 (s.queue_size - (t - s.last_leak) * cfg.leak_rate) with h | h
  · rw [max_eq_right h]
    congr 1
    ring_nf
  · rw [max_eq_left h]
    have hsum : s.queue_size - (T - s.last_leak) * cfg.leak_rate =
        s.queue_size - (t - s.last_leak) * cfg.leak_rate - (T - t) * cfg.leak_rate := by
      ring
    rw [max_eq_left (by linarith), max_eq_left (by linarith)]

/-- The state written back by a sequence of `get_status` calls at the given
times (a `get_status` mutates the store exactly like a bare catch-up). -/
def TBConfig.statusFold (cfg : TBConfig) (s : TBState) (times : List ℚ) : TBState :=
  times.foldl (fun s t => (cfg.get_status s t).2) s

def LBConfig.statusFold (cfg : LBConfig) (s : LBState) (times : List ℚ) : LBState :=
  times.foldl (fun s t => (cfg.get_status s t).2) s

theorem TBConfig.statusFold_refill (cfg : TBConfig) (times : List ℚ) :
    ∀ (s : TBState) (T : ℚ), 0 ≤ cfg.refill_rate → (∀ u ∈ times, u ≤ T) →
      (cfg.refill_tokens (cfg.statusFold s times) T).2 =
        (cfg.refill_tokens s T).2 := by
  induction times with
  | nil => exact fun s T _ _ => rfl
  | cons t rest ih =>
    intro s T hrate hle
    have h1 : cfg.statusFold s (t :: rest) =
        cfg.statusFold (cfg.refill_tokens s t).2 rest := rfl
    rw [h1, ih _ T hrate (fun u hu => hle u (by simp [hu]))]
    exact cfg.refill_refill s t T hrate (hle t (by simp))

theorem LBConfig.statusFold_leak (cfg : LBConfig) (times : List ℚ) :
    ∀ (s : LBState) (T : ℚ), 0 ≤ cfg.leak_rate → (∀ u ∈ times, u ≤ T) →
      (cfg.leak_requests (cfg.statusFold s times) T).2 =
        (cfg.leak_requests s T).2 := by
  induction times with
  | nil => exact fun s T _ _ => rfl
  | cons t rest ih =>
    intro s T hrate hle
    have h1 : cfg.statusFold s (t :: rest) =
        cfg.statusFold (cfg.leak_requests s t).2 rest := rfl
    rw [h1, ih _ T hrate (fun u hu => hle u (by simp [hu]))]
    exact cfg.leak_leak s t T hrate (hle t (by simp))

theorem TBConfig.is_allowed_of_refill_eq (cfg : TBConfig) {sA sB : TBState}
    (client : String) (T cost : ℚ)
    (h : (cfg.refill_tokens sA T).2 = (cfg.refill_tokens sB T).2) :
    cfg.is_allowed sA client T cost = cfg.is_allowed sB client T cost := by
  have hp : cfg.refill_tokens sA T = cfg.refill_tokens sB T := by
    have h1 : (cfg.refill_tokens sA T).1 = (cfg.refill_tokens sA T).2.tokens := rfl
    have h2 : (cfg.refill_tokens sB T).1 = (cfg.refill_tokens sB T).2.tokens := rfl
    exact Prod.ext (by rw [h1, h2, h]) h
  simp only [TBConfig.is_allowed, hp]

theorem LBConfig.is_allowed_of_leak_eq (cfg : LBConfig) {sA sB : LBState}
    (client : String) (T cost : ℚ)
    (h : (cfg.leak_requests sA T).2 = (cfg.leak_requests sB T).2) :
    cfg.is_allowed sA client T cost = cfg.is_allowed sB client T cost := by
  have hp : cfg.leak_requests sA T = cfg.leak_requests sB T := by
    have h1 : (cfg.leak_requests sA T).1 = (cfg.leak_requests sA T).2.queue_size := rfl
    have h2 : (cfg.leak_requests sB T).1 = (cfg.leak_requests sB T).2.queue_size := rfl
    exact Prod.ext (by rw [h1, h2, h]) h
  simp only [LBConfig.is_allowed, hp]

/-- C10: splitting the lazy catch-up of either bucket over an intermediate
instant gives the same stored state as one catch-up over the whole interval
(the `min`/`max` composition identities, stated on `_refill_tokens` and
`_leak_requests`, for non-negative rates and forward-moving time); as a
consequence, any number of `get_status` calls at times up to the second
`is_allowed` call, interleaved between two `is_allowed` calls, leaves the
second call's admission decision (indeed its whole result) unchanged. -/
theorem bucket_catchup_split (tcfg : TBConfig) (ts0 : TBState)
    (lcfg : LBConfig) (ls0 : LBState) (t T t1 cost1 cost2 : ℚ)
    (c1 c2 : String) (times ltimes : List ℚ)
    (htrate : 0 ≤ tcfg.refill_rate) (hlrate : 0 ≤ lcfg.leak_rate)
    (_htd1 : ts0.last_refill ≤ t) (_hld1 : ls0.last_leak ≤ t) (htT : t ≤ T)
    (htimes : ∀ u ∈ times, u ≤ T) (hltimes : ∀ u ∈ ltimes, u ≤ T) :
    (tcfg.refill_tokens (tcfg.refill_tokens ts0 t).2 T).2 =
      (tcfg.refill_tokens ts0 T).2 ∧
    (lcfg.leak_requests (lcfg.leak_requests ls0 t).2 T).2 =
      (lcfg.leak_requests ls0 T).2 ∧
    (tcfg.is_allowed
        (tcfg.statusFold (tcfg.is_allowed ts0 c1 t1 cost1).state times)
        c2 T cost2).allowed =
      (tcfg.is_allowed (tcfg.is_allowed ts0 c1 t1 cost1).state c2 T cost2).allowed ∧
    (lcfg.is_allowed
        (lcfg.statusFold (lcfg.is_allowed ls0 c1 t1 cost1).state ltimes)
        c2 T cost2).allowed =
      (lcfg.is_allowed (lcfg.is_allowed ls0 c1 t1 cost1).state c2 T cost2).allowed := by
  refine ⟨tcfg.refill_refill ts0 t T htrate htT,
    lcfg.leak_leak ls0 t T hlrate htT, ?_, ?_⟩
  · rw [tcfg.is_allowed_of_refill_eq c2 T cost2
      (tcfg.statusFold_refill times _ T htrate htimes)]
  · rw [lcfg.is_allowed_of_leak_eq c2 T cost2
      (lcfg.statusFold_leak ltimes _ T hlrate hltimes)]

/-- Witness for C10: all hypotheses discharged at a concrete input — two
status calls at times 2 and 3 between an `is_allowed` at time 1 and an
`is_allowed` at time 4 do not change the second decision of either bucket. -/
theorem bucket_catchup_split_witness :
    ((⟨10, 2⟩ : TBConfig).refill_tokens
        ((⟨10, 2⟩ : TBConfig).refill_tokens ⟨5, 0, []⟩ 1).2 4).2 =
      ((⟨10, 2⟩ : TBConfig).refill_tokens ⟨5, 0, []⟩ 4).2 ∧
    ((⟨6, 1⟩ : LBConfig).leak_requests
        ((⟨6, 1⟩ : LBConfig).leak_requests ⟨3, 0, []⟩ 1).2 4).2 =
      ((⟨6, 1⟩ : LBConfig).leak_requests ⟨3, 0, []⟩ 4).2 ∧
    ((⟨10, 2⟩ : TBConfig).is_allowed
        ((⟨10, 2⟩ : TBConfig).statusFold
          ((⟨10, 2⟩ : TBConfig).is_allowed ⟨5, 0, []⟩ "A" 1 1).state [2, 3])
        "B" 4 1).allowed =
      ((⟨10, 2⟩ : TBConfig).is_allowed
        ((⟨10, 2⟩ : TBConfig).is_allowed ⟨5, 0, []⟩ "A" 1 1).state "B" 4 1).allowed ∧
    ((⟨6, 1⟩ : LBConfig).is_allowed
        ((⟨6, 1⟩ : LBConfig).statusFold
          ((⟨6, 1⟩ : LBConfig).is_allowed ⟨3, 0, []⟩ "A" 1 1).state [2, 3])
        "B" 4 1).allowed =
      ((⟨6, 1⟩ : LBConfig).is_allowed
        ((⟨6, 1⟩ : LBConfig).is_allowed ⟨3, 0, []⟩ "A" 1 1).state "B" 4 1).allowed :=
  bucket_catchup_split ⟨10, 2⟩ ⟨5, 0, []⟩ ⟨6, 1⟩ ⟨3, 0, []⟩ 1 4 1 1 1 "A" "B"
    [2, 3] [2, 3] (by norm_num) (by norm_num) (by norm_num) (by norm_num)
    (by norm_num)
    (by intro u hu; simp at hu; rcases hu with h | h <;> subst h <;> norm_num)
    (by intro u hu; simp at hu; rcases hu with h | h <;> subst h <;> norm_num)

/-! ### Claim C9: reset followed by status gives the initial snapshot -/

/-- The `request_history` property (LRANGE 0 19): the newest 20 records. -/
def FWState.request_history (s : FWState) : List FWRecord := s.history.take 20

def TBState.request_history (s : TBState) : List TBRecord := s.history.take 20

def LBState.request_history (s : LBState) : List LBRecord := s.history.take 20

def SWState.request_history (s : SWState) : List SWRecord := s.history.take 20

theorem round2_natCast (n : ℕ) : round2 (n : ℚ) = n := by
  unfold round2
  have h : ((n : ℚ) * 100) = ((n * 100 : ℕ) : ℚ) := by push_cast; ring
  rw [h, round_natCast]
  push_cast
  ring

/-- C9: for each limiter, `reset()` followed by `status()` reports the
documented initial snapshot — count 0 and `remaining = maxRequests` for the
fixed window, count 0 for the sliding window, `tokens = capacity` (an integer
capacity, queried at any time not before the reset, with a non-negative refill
rate) for the token bucket, queue level 0 for the leaky bucket — and the
request history is empty. -/
theorem reset_status_roundtrip (fcfg : FWConfig) (fs : FWState)
    (scfg : SWConfig) (ss : SWState) (tcfg : TBConfig) (lcfg : LBConfig)
    (fnow snow tr tnow lr lnow : ℚ) (n : ℕ)
    (htrate : 0 ≤ tcfg.refill_rate) (htn : tr ≤ tnow)
    (hcap : tcfg.capacity = (n : ℚ))
    (hlrate : 0 ≤ lcfg.leak_rate) (hln : lr ≤ lnow) :
    (fcfg.get_status (FWState.resetState fs) fnow).current_count = 0 ∧
    (fcfg.get_status (FWState.resetState fs) fnow).remaining = fcfg.max_requests ∧
    (FWState.resetState fs).request_history = [] ∧
    (scfg.get_status (SWState.resetState ss) snow).1.current_count = 0 ∧
    (scfg.get_status (SWState.resetState ss) snow).1.remaining = scfg.max_requests ∧
    (SWState.resetState ss).request_history = [] ∧
    (tcfg.get_status (tcfg.resetState tr) tnow).1.current_tokens = tcfg.capacity ∧
    (tcfg.resetState tr).request_history = [] ∧
    (lcfg.get_status (lcfg.resetState lr) lnow).1.current_count = 0 ∧
    (lcfg.resetState lr).request_history = [] := by
  refine ⟨rfl, ?_, rfl, ?_, ?_, rfl, ?_, rfl, ?_, rfl⟩
  · simp [FWConfig.get_status, FWState.resetState, FWState.initial]
  · simp [SWConfig.get_status, SWState.resetState, SWConfig.remove_old_requests,
      SWState.zcard]
  · simp [SWConfig.get_status, SWState.resetState, SWConfig.remove_old_requests,
      SWState.zcard]
  · have hd : 0 ≤ (tnow - tr) * tcfg.refill_rate := mul_nonneg (by linarith) htrate
    have hmin : min tcfg.capacity
        (tcfg.capacity + (tnow - tr) * tcfg.refill_rate) = tcfg.capacity :=
      min_eq_left (by linarith)
    have hs : (tcfg.get_status (tcfg.resetState tr) tnow).1.current_tokens =
        round2 (min tcfg.capacity (tcfg.capacity + (tnow - tr) * tcfg.refill_rate)) := rfl
    rw [hs, hmin, hcap, round2_natCast]
  · have hd : 0 ≤ (lnow - lr) * lcfg.leak_rate := mul_nonneg (by linarith) hlrate
    have hmax : max 0 (0 - (lnow - lr) * lcfg.leak_rate) = 0 :=
      max_eq_left (by linarith)
    have hs : (lcfg.get_status (lcfg.resetState lr) lnow).1.current_count =
        round2 (max 0 (0 - (lnow - lr) * lcfg.leak_rate)) := rfl
    rw [hs, hmax]
    have h0 : ((0 : ℕ) : ℚ) = 0 := by norm_num
    rw [← h0, round2_natCast]

/-- Witness for C9: the round-trip at concrete configurations and times, all
hypotheses discharged. -/
theorem reset_status_roundtrip_witness :
    ((⟨3, 60⟩ : FWConfig).get_status (FWState.resetState ⟨fun _ => 7, []⟩) 5).current_count = 0 ∧
    ((⟨3, 60⟩ : FWConfig).get_status (FWState.resetState ⟨fun _ => 7, []⟩) 5).remaining = 3 ∧
    (FWState.resetState ⟨fun _ => 7, []⟩).request_history = [] ∧
    ((⟨2, 10⟩ : SWConfig).get_status (SWState.resetState ⟨[("m", 1)], []⟩) 5).1.current_count = 0 ∧
    ((⟨2, 10⟩ : SWConfig).get_status (SWState.resetState ⟨[("m", 1)], []⟩) 5).1.remaining = 2 ∧
    (SWState.resetState ⟨[("m", 1)], []⟩).request_history = [] ∧
    ((⟨5, 1⟩ : TBConfig).get_status ((⟨5, 1⟩ : TBConfig).resetState 3) 4).1.current_tokens = 5 ∧
    ((⟨5, 1⟩ : TBConfig).resetState 3).request_history = [] ∧
    ((⟨4, 2⟩ : LBConfig).get_status ((⟨4, 2⟩ : LBConfig).resetState 3) 4).1.current_count = 0 ∧
    ((⟨4, 2⟩ : LBConfig).resetState 3).request_history = [] :=
  reset_status_roundtrip ⟨3, 60⟩ ⟨fun _ => 7, []⟩ ⟨2, 10⟩ ⟨[("m", 1)], []⟩
    ⟨5, 1⟩ ⟨4, 2⟩ 5 5 3 4 3 4 5 (by norm_num) (by norm_num) (by norm_num)
    (by norm_num) (by norm_num)

/-! ### Claim C7: non-positive cost is not rejected by the buckets -/

/-- C7 counterexample: the claim says a non-positive cost is rejected at the
boundary with no admission and no state mutation; in the code a cost-0 call on
an empty token bucket is admitted and stamps `last_refill`, and a cost-(-1)
call on a leaky bucket is admitted and lowers the stored queue level. -/
theorem bucket_nonpositive_cost_counterexample :
    ((⟨5, 1⟩ : TBConfig).is_allowed ⟨0, 0, []⟩ "A" 7 0).allowed = true ∧
    ((⟨5, 1⟩ : TBConfig).is_allowed ⟨0, 0, []⟩ "A" 7 0).state.last_refill = 7 ∧
    ((⟨5, 1⟩ : LBConfig).is_allowed ⟨2, 0, []⟩ "A" 0 (-1)).allowed = true ∧
    ((⟨5, 1⟩ : LBConfig).is_allowed ⟨2, 0, []⟩ "A" 0 (-1)).state.queue_size = 1 := by
  norm_num [TBConfig.is_allowed, TBConfig.refill_tokens,
    LBConfig.is_allowed, LBConfig.leak_requests]

/-- C7 amended: neither bucket validates the cost.  A call with non-positive
cost flows through the ordinary decide path: the catch-up runs and stamps the
last-update time, the token bucket admits it outright (a non-negative
caught-up level always covers a non-positive cost) and stores the caught-up
level minus the cost, and the leaky bucket admits it whenever its caught-up
level is within capacity, storing the caught-up level plus the (non-positive)
cost. -/
theorem bucket_nonpositive_cost_not_rejected (tcfg : TBConfig) (ts : TBState)
    (lcfg : LBConfig) (ls : LBState) (client : String) (now cost : ℚ)
    (hcost : cost ≤ 0)
    (htcap : 0 ≤ tcfg.capacity) (htrate : 0 ≤ tcfg.refill_rate)
    (ht0 : 0 ≤ ts.tokens) (htnow : ts.last_refill ≤ now)
    (hlcap : 0 ≤ lcfg.capacity) (hlrate : 0 ≤ lcfg.leak_rate)
    (hl1 : ls.queue_size ≤ lcfg.capacity) (hlnow : ls.last_leak ≤ now) :
    (tcfg.is_allowed ts client now cost).allowed = true ∧
    (tcfg.is_allowed ts client now cost).state.last_refill = now ∧
    (tcfg.is_allowed ts client now cost).state.tokens =
      min tcfg.capacity (ts.tokens + (now - ts.last_refill) * tcfg.refill_rate) - cost ∧
    (lcfg.is_allowed ls client now cost).allowed = true ∧
    (lcfg.is_allowed ls client now cost).state.last_leak = now ∧
    (lcfg.is_allowed ls client now cost).state.queue_size =
      max 0 (ls.queue_size - (now - ls.last_leak) * lcfg.leak_rate) + cost := by
  have htd : 0 ≤ (now - ts.last_refill) * tcfg.refill_rate :=
    mul_nonneg (by linarith) htrate
  have hld : 0 ≤ (now - ls.last_leak) * lcfg.leak_rate :=
    mul_nonneg (by linarith) hlrate
  have htadm : cost ≤ min tcfg.capacity
      (ts.tokens + (now - ts.last_refill) * tcfg.refill_rate) :=
    hcost.trans (le_min htcap (by linarith))
  have hladm : max 0 (ls.queue_size - (now - ls.last_leak) * lcfg.leak_rate) + cost ≤
      lcfg.capacity := by
    have := max_le hlcap (show ls.queue_size - (now - ls.last_leak) * lcfg.leak_rate ≤
      lcfg.capacity by linarith)
    linarith
  refine ⟨?_, ?_, ?_, ?_, ?_, ?_⟩ <;>
    simp [TBConfig.is_allowed, TBConfig.refill_tokens, htadm,
      LBConfig.is_allowed, LBConfig.leak_requests, hladm]

/-- Witness for C7's amended statement: a cost-(-1) call at a concrete input,
all hypotheses discharged. -/
theorem bucket_nonpositive_cost_not_rejected_witness :
    ((⟨5, 1⟩ : TBConfig).is_allowed ⟨1, 0, []⟩ "B" 2 (-1)).allowed = true ∧
    ((⟨5, 1⟩ : TBConfig).is_allowed ⟨1, 0, []⟩ "B" 2 (-1)).state.last_refill = 2 ∧
    ((⟨5, 1⟩ : TBConfig).is_allowed ⟨1, 0, []⟩ "B" 2 (-1)).state.tokens =
      min (5 : ℚ) (1 + (2 - 0) * 1) - (-1) ∧
    ((⟨5, 1⟩ : LBConfig).is_allowed ⟨3, 0, []⟩ "B" 2 (-1)).allowed = true ∧
    ((⟨5, 1⟩ : LBConfig).is_allowed ⟨3, 0, []⟩ "B" 2 (-1)).state.last_leak = 2 ∧
    ((⟨5, 1⟩ : LBConfig).is_allowed ⟨3, 0, []⟩ "B" 2 (-1)).state.queue_size =
      max 0 (3 - (2 - 0) * 1) + (-1) :=
  bucket_nonpositive_cost_not_rejected ⟨5, 1⟩ ⟨1, 0, []⟩ ⟨5, 1⟩ ⟨3, 0, []⟩ "B" 2 (-1)
    (by norm_num) (by norm_num) (by norm_num) (by norm_num) (by norm_num)
    (by norm_num) (by norm_num) (by norm_num) (by norm_num)

/-! ### Claim C6: N unit-cost callers against capacity N-1 -/

/-- Number of admissions among `m` serialized unit-cost decide calls issued at
one instant against the token bucket. -/
def TBConfig.admitCount (cfg : TBConfig) (s : TBState) (now : ℚ) : ℕ → ℕ
  | 0 => 0
  | m + 1 =>
    (if (cfg.is_allowed s "" now 1).allowed then 1 else 0) +
      cfg.admitCount (cfg.is_allowed s "" now 1).state now m

/-- Number of admissions among `m` serialized unit-cost decide calls issued at
one instant against the leaky bucket. -/
def LBConfig.admitCount (cfg : LBConfig) (s : LBState) (now : ℚ) : ℕ → ℕ
  | 0 => 0
  | m + 1 =>
    (if (cfg.is_allowed s "" now 1).allowed then 1 else 0) +
      cfg.admitCount (cfg.is_allowed s "" now 1).state now m

theorem TBConfig.admitCount_min (cfg : TBConfig) (now : ℚ) :
    ∀ (m x : ℕ) (hist : List TBRecord), (x : ℚ) ≤ cfg.capacity →
      cfg.admitCount ⟨(x : ℚ), now, hist⟩ now m = min x m := by
  intro m
  induction m with
  | zero => intro x hist hx; simp [TBConfig.admitCount]
  | succ m ih =>
    intro x hist hx
    have hz : (now - now) * cfg.refill_rate = 0 := by ring
    have hmin : min cfg.capacity ((x : ℚ) + (now - now) * cfg.refill_rate) = (x : ℚ) := by
      rw [hz, add_zero, min_eq_right hx]
    match x with
    | 0 =>
      have hcond : ¬ ((1 : ℚ) ≤ min cfg.capacity (((0 : ℕ) : ℚ) + (now - now) * cfg.refill_rate)) := by
        rw [hmin]; norm_num
      rw [TBConfig.admitCount]
      simp only [TBConfig.is_allowed, TBConfig.refill_tokens, if_neg hcond]
      rw [show min cfg.capacity (((0 : ℕ) : ℚ) + (now - now) * cfg.refill_rate) = ((0 : ℕ) : ℚ) from hmin]
      rw [ih 0 _ hx]
      simp
    | k + 1 =>
      have hcond : (1 : ℚ) ≤ min cfg.capacity (((k + 1 : ℕ) : ℚ) + (now - now) * cfg.refill_rate) := by
        rw [hmin]
        exact_mod_cast Nat.one_le_iff_ne_zero.mpr (Nat.succ_ne_zero k)
      have hk : (k : ℚ) ≤ cfg.capacity := by
        have : (k : ℚ) ≤ ((k + 1 : ℕ) : ℚ) := by push_cast; linarith
        linarith
      rw [TBConfig.admitCount]
      simp only [TBConfig.is_allowed, TBConfig.refill_tokens, if_pos hcond]
      rw [show min cfg.capacity (((k + 1 : ℕ) : ℚ) + (now - now) * cfg.refill_rate) = ((k + 1 : ℕ) : ℚ) from hmin]
      have hsub : ((k + 1 : ℕ) : ℚ) - 1 = ((k : ℕ) : ℚ) := by push_cast; ring
      rw [hsub, ih k _ hk]
      norm_num
      omega

theorem LBConfig.admitCount_min_sub (cfg : LBConfig) (now : ℚ) (c : ℕ)
    (hcap : cfg.capacity = (c : ℚ)) :
    ∀ (m j : ℕ) (hist : List LBRecord), j ≤ c →
      cfg.admitCount ⟨(j : ℚ), now, hist⟩ now m = min (c - j) m := by
  intro m
  induction m with
  | zero => intro j hist hj; simp [LBConfig.admitCount]
  | succ m ih =>
    intro j hist hj
    have hz : (now - now) * cfg.leak_rate = 0 := by ring
    have hmax : max 0 ((j : ℚ) - (now - now) * cfg.leak_rate) = (j : ℚ) := by
      rw [hz, sub_zero, max_eq_right (by positivity)]
    by_cases hlt : j < c
    · have hcond : max 0 ((j : ℚ) - (now - now) * cfg.leak_rate) + 1 ≤ cfg.capacity := by
        rw [hmax, hcap]
        exact_mod_cast hlt
      rw [LBConfig.admitCount]
      simp only [LBConfig.is_allowed, LBConfig.leak_requests, if_pos hcond]
      rw [show max 0 ((j : ℚ) - (now - now) * cfg.leak_rate) = (j : ℚ) from hmax]
      have hadd : (j : ℚ) + 1 = ((j + 1 : ℕ) : ℚ) := by push_cast; ring
      rw [hadd, ih (j + 1) _ hlt]
      norm_num
      omega
    · have hcond : ¬ (max 0 ((j : ℚ) - (now - now) * cfg.leak_rate) + 1 ≤ cfg.capacity) := by
        rw [hmax, hcap]
        have : c ≤ j := le_of_not_lt hlt
        have hcast : (c : ℚ) ≤ (j : ℚ) := by exact_mod_cast this
        linarith
      rw [LBConfig.admitCount]
      simp only [LBConfig.is_allowed, LBConfig.leak_requests, if_neg hcond]
      rw [show max 0 ((j : ℚ) - (now - now) * cfg.leak_rate) = (j : ℚ) from hmax]
      rw [ih j _ hj]
      norm_num
      omega

/-- The shared Redis registers seen by concurrently executing token-bucket
callers. -/
structure ConcStore where
  tokens : ℚ
  last_refill : ℚ

/-- The local variables of one caller running `TokenBucketLimiter.is_allowed`:
the two GET results, the computed caught-up level, the decision, and a program
counter over the call's Redis commands (GET tokens; GET last_refill;
SET tokens; SET last_refill; then, only on admission, SET tokens).  Arithmetic
and the comparison are caller-local; each numbered command is one atomic unit
against the store, as in the Python code, which uses no lock, transaction, or
compare-and-swap around them. -/
structure CallerLocal where
  tread : ℚ
  lread : ℚ
  cur : ℚ
  allowed : Bool
  pc : ℕ

def CallerLocal.start : CallerLocal := ⟨0, 0, 0, false, 0⟩

/-- One atomic store command of a caller's `is_allowed` at time `now` with the
given cost. -/
def concStep (cfg : TBConfig) (now cost : ℚ) (st : ConcStore) (l : CallerLocal) :
    ConcStore × CallerLocal :=
  match l.pc with
  | 0 => (st, { l with tread := st.tokens, pc := 1 })
  | 1 => (st, { l with lread := st.last_refill, pc := 2 })
  | 2 =>
    let c := min cfg.capacity (l.tread + (now - l.lread) * cfg.refill_rate)
    ({ st with tokens := c }, { l with cur := c, pc := 3 })
  | 3 => ({ st with last_refill := now }, { l with pc := 4 })
  | 4 =>
    if cost ≤ l.cur then
      ({ st with tokens := l.cur - cost }, { l with allowed := true, pc := 5 })
    else (st, { l with allowed := false, pc := 5 })
  | _ => (st, l)

/-- Run two unit-cost callers A and B under an interleaving schedule (`true`
steps A, `false` steps B). -/
def concRun (cfg : TBConfig) (now cost : ℚ) :
    List Bool → ConcStore → CallerLocal → CallerLocal →
      ConcStore × CallerLocal × CallerLocal
  | [], st, a, b => (st, a, b)
  | true :: sch, st, a, b =>
    concRun cfg now cost sch (concStep cfg now cost st a).1
      (concStep cfg now cost st a).2 b
  | false :: sch, st, a, b =>
    concRun cfg now cost sch (concStep cfg now cost st b).1 a
      (concStep cfg now cost st b).2

/-- C6 counterexample: the claim asserts that under every interleaving of the
callers' store reads and writes, N callers against capacity N-1 yield exactly
N-1 admissions.  With N = 2 and capacity 1 (bucket initialized full), the
alternating interleaving of the two callers' Redis commands admits both
callers: both GET tokens = 1 before either deducts, so N = 2 admissions — a
double-spend the code does not prevent (no lock, transaction, or
compare-and-swap guards the read-modify-write). -/
theorem concurrent_double_spend_counterexample :
    ((concRun ⟨1, 0⟩ 0 1
        [true, false, true, false, true, false, true, false, true, false]
        ⟨1, 0⟩ CallerLocal.start CallerLocal.start).2.1.allowed = true) ∧
    ((concRun ⟨1, 0⟩ 0 1
        [true, false, true, false, true, false, true, false, true, false]
        ⟨1, 0⟩ CallerLocal.start CallerLocal.start).2.2.allowed = true) := by
  norm_num [concRun, concStep, CallerLocal.start]

/-- C6 amended: when the N unit-cost decide calls are serialized (each call
executed as one atomic unit, as the spec's concurrency section requires),
a token bucket starting full at capacity N-1 and a leaky bucket starting
empty at capacity N-1 admit exactly N-1 of the N calls and deny exactly 1;
the code's actual interleaved store commands do not guarantee this (see the
counterexample). -/
theorem bucket_serialized_admissions (N : ℕ) (hN : 1 ≤ N) (now : ℚ)
    (tcfg : TBConfig) (lcfg : LBConfig)
    (htcap : tcfg.capacity = ((N - 1 : ℕ) : ℚ))
    (hlcap : lcfg.capacity = ((N - 1 : ℕ) : ℚ)) :
    tcfg.admitCount ⟨((N - 1 : ℕ) : ℚ), now, []⟩ now N = N - 1 ∧
    N - tcfg.admitCount ⟨((N - 1 : ℕ) : ℚ), now, []⟩ now N = 1 ∧
    lcfg.admitCount ⟨((0 : ℕ) : ℚ), now, []⟩ now N = N - 1 ∧
    N - lcfg.admitCount ⟨((0 : ℕ) : ℚ), now, []⟩ now N = 1 := by
  have ht := tcfg.admitCount_min now N (N - 1) [] (le_of_eq htcap.symm)
  have hl := lcfg.admitCount_min_sub now (N - 1) hlcap N 0 [] (Nat.zero_le _)
  rw [ht, hl]
  omega

/-- Witness for C6's amended statement: three serialized unit-cost calls
against capacity 2, hypotheses discharged at `N = 3`. -/
theorem bucket_serialized_admissions_witness :
    (⟨((2 : ℕ) : ℚ), 0⟩ : TBConfig).admitCount ⟨((3 - 1 : ℕ) : ℚ), 5, []⟩ 5 3 = 2 ∧
    3 - (⟨((2 : ℕ) : ℚ), 0⟩ : TBConfig).admitCount ⟨((3 - 1 : ℕ) : ℚ), 5, []⟩ 5 3 = 1 ∧
    (⟨((2 : ℕ) : ℚ), 1⟩ : LBConfig).admitCount ⟨((0 : ℕ) : ℚ), 5, []⟩ 5 3 = 2 ∧
    3 - (⟨((2 : ℕ) : ℚ), 1⟩ : LBConfig).admitCount ⟨((0 : ℕ) : ℚ), 5, []⟩ 5 3 = 1 :=
  bucket_serialized_admissions 3 (by norm_num) 5 ⟨((2 : ℕ) : ℚ), 0⟩
    ⟨((2 : ℕ) : ℚ), 1⟩ (by norm_num) (by norm_num)

/-! ### Claim C8: behavior under store failures -/

/-- The token-bucket store registers with a transient failure mode: every
Redis command raises (modelled as `Except.error` with the exception text)
while `failing` is set. -/
structure RedisTB where
  tokens : ℚ
  last_refill : ℚ
  failing : Bool

def RedisTB.getTokens (r : RedisTB) : Except String ℚ :=
  if r.failing then .error "connection error" else .ok r.tokens

def RedisTB.getLastRefill (r : RedisTB) : Except String ℚ :=
  if r.failing then .error "connection error" else .ok r.last_refill

def RedisTB.setTokens (r : RedisTB) (v : ℚ) : Except String RedisTB :=
  if r.failing then .error "connection error" else .ok { r with tokens := v }

def RedisTB.setLastRefill (r : RedisTB) (v : ℚ) : Except String RedisTB :=
  if r.failing then .error "connection error" else .ok { r with last_refill := v }

/-- `TokenBucketLimiter.is_allowed` over a fallible store: the Python method
wraps nothing in try/except, so the first raised store error propagates out of
the call to the caller. -/
def TBConfig.is_allowed_fallible (cfg : TBConfig) (r : RedisTB) (now cost : ℚ) :
    Except String (Bool × ℚ × RedisTB) := do
  let t ← r.getTokens
  let l ← r.getLastRefill
  let cur := min cfg.capacity (t + (now - l) * cfg.refill_rate)
  let r1 ← r.setTokens cur
  let r2 ← r1.setLastRefill now
  if cost ≤ cur then
    let r3 ← r2.setTokens (cur - cost)
    return (true, cur - cost, r3)
  else
    return (false, cur, r2)

/-- The fixed-window store with a transient failure mode. -/
structure RedisFW where
  counts : ℚ → ℕ
  failing : Bool

def RedisFW.incr (r : RedisFW) (k : ℚ) : Except String (ℕ × RedisFW) :=
  if r.failing then .error "connection error"
  else .ok (r.counts k + 1,
    { r with counts := fun k2 => if k2 = k then r.counts k + 1 else r.counts k2 })

def RedisFW.get (r : RedisFW) (k : ℚ) : Except String ℕ :=
  if r.failing then .error "connection error" else .ok (r.counts k)

/-- `FixedWindowRateLimiter.is_allowed` over a fallible store: the whole body
sits in try/except, and the except arm returns
`(True, {'window_reset': False, 'error': str(e)})` — a fail-open decision
tagged with the error.  Result components: admitted, window_reset, error
indicator, store after the call. -/
def FWConfig.is_allowed_fallible (cfg : FWConfig) (r : RedisFW) (now : ℚ) :
    Bool × Bool × Option String × RedisFW :=
  match r.incr (cfg.windowStart now) with
  | .ok (c, r1) => (decide (c ≤ cfg.max_requests), decide (c = 1), none, r1)
  | .error e => (true, false, some e, r)

/-- `FixedWindowRateLimiter.get_status` over a fallible store: the except arm
returns a degraded snapshot reporting zero usage together with an explicit
error string, distinguishable from a genuine zero count. -/
def FWConfig.get_status_fallible (cfg : FWConfig) (r : RedisFW) (now : ℚ) :
    FWStatus × Option String :=
  match r.get (cfg.windowStart now) with
  | .ok c =>
    ({ current_count := c, max_requests := cfg.max_requests,
       remaining := max 0 ((cfg.max_requests : ℤ) - (c : ℤ)),
       time_remaining := max 0 (cfg.windowStart now + cfg.window_size - now),
       algorithm := "Fixed Window" }, none)
  | .error e =>
    ({ current_count := 0, max_requests := cfg.max_requests,
       remaining := (cfg.max_requests : ℤ), time_remaining := 0,
       algorithm := "Fixed Window (Error)" }, some e)

/-- C8 counterexample: the claim says no limiter's caller ever receives a
raised exception from a transient store failure; the token bucket's
`is_allowed` has no try/except, so on a failing store the call raises (the
model returns the propagated error instead of a decision). -/
theorem store_failure_counterexample :
    (⟨5, 1⟩ : TBConfig).is_allowed_fallible ⟨5, 0, true⟩ 1 1 =
      .error "connection error" := rfl

/-- C8 amended: only the fixed-window limiter catches store failures — its
decide fails open (admitted, `window_reset = False`) with an explicit error
indicator and its status degrades to a zero-usage snapshot tagged with the
error string — while the token bucket's decide (like the leaky-bucket and
sliding-window paths, which have no try/except either) propagates the raised
store exception to the caller. -/
theorem store_failure_behavior (fcfg : FWConfig) (fr : RedisFW) (fnow : ℚ)
    (tcfg : TBConfig) (tr : RedisTB) (tnow tcost : ℚ)
    (hf : fr.failing = true) (ht : tr.failing = true) :
    (fcfg.is_allowed_fallible fr fnow).1 = true ∧
    (fcfg.is_allowed_fallible fr fnow).2.1 = false ∧
    (fcfg.is_allowed_fallible fr fnow).2.2.1 = some "connection error" ∧
    (fcfg.get_status_fallible fr fnow).1.current_count = 0 ∧
    (fcfg.get_status_fallible fr fnow).2 = some "connection error" ∧
    tcfg.is_allowed_fallible tr tnow tcost = .error "connection error" := by
  refine ⟨?_, ?_, ?_, ?_, ?_, ?_⟩
  case refine_6 =>
    obtain ⟨a, b, f⟩ := tr
    cases ht
    rfl
  all_goals
    simp [FWConfig.is_allowed_fallible, FWConfig.get_status_fallible,
      RedisFW.incr, RedisFW.get, hf]

/-- Witness for C8's amended statement at a concrete failing store. -/
theorem store_failure_behavior_witness :
    ((⟨3, 60⟩ : FWConfig).is_allowed_fallible ⟨fun _ => 0, true⟩ 0).1 = true ∧
    ((⟨3, 60⟩ : FWConfig).is_allowed_fallible ⟨fun _ => 0, true⟩ 0).2.1 = false ∧
    ((⟨3, 60⟩ : FWConfig).is_allowed_fallible ⟨fun _ => 0, true⟩ 0).2.2.1 =
      some "connection error" ∧
    ((⟨3, 60⟩ : FWConfig).get_status_fallible ⟨fun _ => 0, true⟩ 0).1.current_count = 0 ∧
    ((⟨3, 60⟩ : FWConfig).get_status_fallible ⟨fun _ => 0, true⟩ 0).2 =
      some "connection error" ∧
    (⟨5, 1⟩ : TBConfig).is_allowed_fallible ⟨2, 0, true⟩ 1 1 =
      .error "connection error" :=
  store_failure_behavior ⟨3, 60⟩ ⟨fun _ => 0, true⟩ 0 ⟨5, 1⟩ ⟨2, 0, true⟩ 1 1
    rfl rfl

end RateLimiter
